import Mathlib

/-!
Verification of the attendance-calendar core of the Ashida-ESS application
(`AttendanceCalendar` component): the status reconciler `processAttendanceData`,
the calendar grid builder `renderCalendarGrid`, the edit-window gate
`isWithinLast7Days` / `handleDayClick`, the entry submitter `handleSubmitEntry`
and the fetch-cycle wrapper `fetchMonthlyRecords`.

The JavaScript runtime's `Date` semantics are embedded explicitly:
* a naive datetime string `"YYYY-MM-DD HH:MM:SS"` parses to the epoch instant
  `wallClockMinutes - tzOffset`, where `tzOffset` is the device's UTC offset in
  minutes (east positive, e.g. 330 for IST); a fixed offset is assumed (no DST);
* `Date.prototype.toISOString` renders the epoch instant as a UTC datetime, so
  its date component is the UTC calendar date;
* a date-only string `"YYYY-MM-DD"` parses to the UTC midnight of that date;
* `getFullYear/getMonth/getDate/getDay` and `setHours(0,0,0,0)` act on the
  local wall clock, i.e. on `epoch + tzOffset`.
Calendar dates are represented by the `Date` structure below and converted
to/from epoch day numbers (days since 1970-01-01) by `daysFromCivil` /
`civilFromDays`, the standard Gregorian conversion the JS runtime implements.
-/

/-- A calendar date (the `YYYY-MM-DD` part of the strings used in the source).
`month` is 1-based, unlike JavaScript's 0-based `getMonth`. -/
structure Date where
  year : Int
  month : Nat
  day : Nat
deriving DecidableEq, BEq, Repr

/-- A timezone-naive datetime: the wall-clock value carried by a Frappe
datetime string `"YYYY-MM-DD HH:MM:SS"` (seconds play no role in any of the
verified logic, so the time of day is kept in minutes). -/
structure NaiveDT where
  date : Date
  minuteOfDay : Nat
deriving DecidableEq, BEq, Repr

/-- Number of days from 1970-01-01 to the given date (negative before 1970);
the day-number arithmetic underlying the JS `Date` object. -/
def daysFromCivil (dt : Date) : Int :=
  let y : Int := if dt.month ≤ 2 then dt.year - 1 else dt.year
  let mp : Int := if dt.month ≤ 2 then (dt.month : Int) + 9 else (dt.month : Int) - 3
  let doy : Int := ((153 * mp + 2).fdiv 5) + (dt.day : Int) - 1
  365 * y + y.fdiv 4 - y.fdiv 100 + y.fdiv 400 + doy - 719468

/-- Inverse of `daysFromCivil`: the calendar date of an epoch day number. -/
def civilFromDays (z0 : Int) : Date :=
  let z := z0 + 719468
  let era := z.fdiv 146097
  let doe := z - era * 146097
  let yoe := (doe - doe.fdiv 1460 + doe.fdiv 36524 - doe.fdiv 146096).fdiv 365
  let y := yoe + era * 400
  let doy := doe - (365 * yoe + yoe.fdiv 4 - yoe.fdiv 100)
  let mp := (5 * doy + 2).fdiv 153
  let d := (doy - (153 * mp + 2).fdiv 5 + 1).toNat
  let m := if mp < 10 then mp + 3 else mp - 9
  { year := if m ≤ 2 then y + 1 else y, month := m.toNat, day := d }

/-- `getDay()` of the JS `Date`: weekday index with 0 = Sunday
(1970-01-01 was a Thursday, index 4). -/
def weekday (d : Date) : Nat :=
  (((daysFromCivil d + 4) % 7)).toNat

/-- Gregorian leap-year rule (what `new Date(year, month + 1, 0).getDate()`
implements for February). -/
def isLeapYear (y : Int) : Bool :=
  (y.emod 4 = 0 && y.emod 100 ≠ 0) || y.emod 400 = 0

/-- Length of a month (`month` 1-based): the value of
`new Date(year, month + 1, 0).getDate()` in `getMonthDateRange` and
`renderCalendarGrid`. -/
def daysInMonth (y : Int) (m : Nat) : Nat :=
  if m = 2 then (if isLeapYear y then 29 else 28)
  else if m = 4 ∨ m = 6 ∨ m = 9 ∨ m = 11 then 30
  else 31

/-- Epoch instant (in minutes) of a naive datetime parsed by `new Date(...)`
in a runtime whose UTC offset is `tz` minutes (east positive): the JS parser
interprets a timezone-less datetime string as local time. -/
def epochMinutes (tz : Int) (t : NaiveDT) : Int :=
  1440 * daysFromCivil t.date + (t.minuteOfDay : Int) - tz

/-- The date key a check-event is bucketed under by `processAttendanceData`:
`new Date(record.time).toISOString().split('T')[0]`, i.e. the UTC calendar
date of the parsed instant. -/
def bucketDate (tz : Int) (t : NaiveDT) : Date :=
  civilFromDays ((epochMinutes tz t).fdiv 1440)

/-- The six display statuses of the `DayData.status` field. -/
inductive DayStatus where
  | present
  | incomplete
  | absent
  | on_leave
  | half_day
  | work_from_home
deriving DecidableEq, BEq, Repr

/-- `log_type` of an Employee Checkin record. -/
inductive LogType where
  | IN
  | OUT
deriving DecidableEq, BEq, Repr

/-- The per-day record built by the reconciler (interface `DayData` in the
source). `attendanceStatus` is the normalized status string of the official
Attendance record, `none` when the JS field is `null`/`undefined`. -/
structure DayData where
  date : Date
  checkIns : List NaiveDT
  checkOuts : List NaiveDT
  status : DayStatus
  attendanceStatus : Option String
  isWFH : Bool
  isOD : Bool
deriving DecidableEq, BEq, Repr

/-- An Employee Checkin record as consumed by the reconciler (`time` is a
structured naive datetime, so the source's defensive skips for a missing or
unparseable `time` string are vacuous in the embedding). -/
structure EmployeeCheckin where
  employee : String
  time : NaiveDT
  log_type : LogType
deriving DecidableEq, BEq, Repr

/-- An Attendance record; `attendance_date` is `none` for the source's
`!record.attendance_date` skip, `status` is `none` for a missing status. -/
structure Attendance where
  employee : String
  attendance_date : Option Date
  status : Option String
deriving DecidableEq, BEq, Repr

/-- An approved Work From Home application (date span). -/
structure WFHApplication where
  employee : String
  wfh_start_date : Date
  wfh_end_date : Date
deriving DecidableEq, BEq, Repr

/-- An approved OD application (date span). -/
structure ODApplication where
  employee : String
  od_start_date : Date
  od_end_date : Date
deriving DecidableEq, BEq, Repr

/-- JS truthiness of the `attendanceStatus` string field:
`undefined`/`null`/`""` are falsy. -/
def jsTruthy (s : Option String) : Bool :=
  match s with
  | none => false
  | some str => str ≠ ""

/-- Lookup in the date-keyed object `dailyData` (modelled as an insertion-
ordered association list, matching JS object key semantics). -/
def lookupDay (m : List (Date × DayData)) (d : Date) : Option DayData :=
  match m with
  | [] => none
  | (k, v) :: rest => if k = d then some v else lookupDay rest d

/-- Update/insert in `dailyData`: overwrite in place if present, append
otherwise (JS object assignment keeps insertion order). -/
def insertDay (m : List (Date × DayData)) (d : Date) (v : DayData) :
    List (Date × DayData) :=
  match m with
  | [] => [(d, v)]
  | (k, w) :: rest => if k = d then (k, v) :: rest else (k, w) :: insertDay rest d v

/-- Whitespace as matched by the regex `\s` (ASCII part; the status strings
in play contain only spaces). -/
def isSpaceChar (c : Char) : Bool :=
  c = ' ' || c = '\t' || c = '\n' || c = '\r' || c = '\x0b' || c = '\x0c'

/-- `replace(/\s+/g, '_')`: collapse each maximal whitespace run to one `_`.
The `inRun` flag records whether the previous character was whitespace. -/
def collapseWs : Bool → List Char → List Char
  | _, [] => []
  | inRun, c :: rest =>
    if isSpaceChar c then
      if inRun then collapseWs true rest else '_' :: collapseWs true rest
    else c :: collapseWs false rest

/-- `record.status?.toLowerCase().replace(/\s+/g, '_')` on a present string
(lower-casing character-wise, as `toLowerCase` does for the basic-latin
status vocabulary in play). -/
def normalizeStatus (s : String) : String :=
  String.mk (collapseWs false (s.toList.map Char.toLower))

/-- The optional-chaining form: `undefined` stays `undefined`. -/
def normAtt (s : Option String) : Option String :=
  s.map normalizeStatus

/-- The fresh `DayData` object created when `dailyData[dateKey]` is missing. -/
def seedDay (wfhDateSet odDateSet : List Date) (d : Date) : DayData :=
  { date := d
    checkIns := []
    checkOuts := []
    status := .absent
    attendanceStatus := none
    isWFH := wfhDateSet.contains d
    isOD := odDateSet.contains d }

/-- Body of the Attendance pass for one record: store the normalized status
string and set the initial status through the source's if/else chain (an
unrecognized value sets no status and leaves the current one). -/
def applyAttendanceStatus (st : Option String) (dd : DayData) : DayData :=
  let dd := { dd with attendanceStatus := st }
  if st = some "on_leave" then { dd with status := .on_leave }
  else if st = some "half_day" then { dd with status := .half_day }
  else if st = some "work_from_home" then { dd with status := .work_from_home }
  else if st = some "present" then { dd with status := .present }
  else if st = some "absent" then { dd with status := .absent }
  else dd

/-- One step of `attendanceRecords.forEach(...)` in `processAttendanceData`. -/
def attStep (wfhDateSet odDateSet : List Date) (m : List (Date × DayData))
    (r : Attendance) : List (Date × DayData) :=
  match r.attendance_date with
  | none => m
  | some d =>
    let dd := (lookupDay m d).getD (seedDay wfhDateSet odDateSet d)
    insertDay m d (applyAttendanceStatus (normAtt r.status) dd)

/-- Body of the checkin pass for one record: append the timestamp to the
`checkIns` or `checkOuts` sequence. -/
def applyCheckin (r : EmployeeCheckin) (dd : DayData) : DayData :=
  match r.log_type with
  | .IN => { dd with checkIns := dd.checkIns ++ [r.time] }
  | .OUT => { dd with checkOuts := dd.checkOuts ++ [r.time] }

/-- One step of `records.forEach(...)` in `processAttendanceData`: the record
is bucketed under the UTC date of its parsed timestamp (`toISOString`). -/
def cinStep (tz : Int) (wfhDateSet odDateSet : List Date)
    (m : List (Date × DayData)) (r : EmployeeCheckin) : List (Date × DayData) :=
  let d := bucketDate tz r.time
  let dd := (lookupDay m d).getD (seedDay wfhDateSet odDateSet d)
  insertDay m d (applyCheckin r dd)

/-- The "Determine final status for each day" pass of `processAttendanceData`
applied to one entry. -/
def deriveFinal (dd : DayData) : DayData :=
  if jsTruthy dd.attendanceStatus &&
      (dd.attendanceStatus == some "on_leave" ||
       dd.attendanceStatus == some "half_day" ||
       dd.attendanceStatus == some "work_from_home") then
    dd
  else
    let hasCheckIn := dd.checkIns.length > 0
    let hasCheckOut := dd.checkOuts.length > 0
    if hasCheckIn && hasCheckOut then
      if dd.checkOuts.length ≥ dd.checkIns.length then { dd with status := .present }
      else { dd with status := .incomplete }
    else if hasCheckIn && !hasCheckOut then { dd with status := .incomplete }
    else if !hasCheckIn && hasCheckOut then { dd with status := .incomplete }
    else if !(jsTruthy dd.attendanceStatus) then { dd with status := .absent }
    else dd

/-- `processAttendanceData(records, attendanceRecords, wfhDateSet, odDateSet)`:
Attendance pass, then Employee Checkin pass, then the final-status pass over
every entry of the map.  `tz` is the runtime's UTC offset in minutes. -/
def processAttendanceData (tz : Int) (records : List EmployeeCheckin)
    (attendanceRecords : List Attendance)
    (wfhDateSet odDateSet : List Date) : List (Date × DayData) :=
  let afterAtt := attendanceRecords.foldl (attStep wfhDateSet odDateSet) []
  let afterCin := records.foldl (cinStep tz wfhDateSet odDateSet) afterAtt
  afterCin.map (fun p => (p.1, deriveFinal p.2))

/-- A populated grid cell (interface `DayInfo` in the source). -/
structure DayInfo where
  day : Nat
  dateKey : Date
  data : Option DayData
deriving DecidableEq, BEq, Repr

/-- The date-key string built from local components
(`${year}-${pad(month+1)}-${pad(day)}`), as a `Date` value. -/
def mkDateKey (year : Int) (month day : Nat) : Date :=
  { year := year, month := month, day := day }

/-- The sequence of day cells emitted by `renderCalendarGrid`'s day loop:
one per calendar day, carrying the day number, the date key and the
`processedData` lookup. -/
def monthCells (processedData : List (Date × DayData)) (year : Int)
    (month : Nat) : List DayInfo :=
  (List.range (daysInMonth year month)).map (fun i =>
    let day := i + 1
    let dateKey := mkDateKey year month day
    { day := day, dateKey := dateKey, data := lookupDay processedData dateKey })

/-- One iteration of `renderCalendarGrid`'s day loop on the accumulator
`(weeks, currentWeek)`: push `currentWeek` when it is full, then append the
day cell. -/
def gridStep (p : List (List (Option DayInfo)) × List (Option DayInfo))
    (c : DayInfo) : List (List (Option DayInfo)) × List (Option DayInfo) :=
  let ws := if p.2.length = 7 then p.1 ++ [p.2] else p.1
  let cw := if p.2.length = 7 then ([] : List (Option DayInfo)) else p.2
  (ws, cw ++ [some c])

/-- `renderCalendarGrid()`: leading `null`s for the first weekday, one cell
per day, trailing `null`s padding the last week to length 7. -/
def renderCalendarGrid (processedData : List (Date × DayData)) (year : Int)
    (month : Nat) : List (List (Option DayInfo)) :=
  let startingDayOfWeek := weekday (mkDateKey year month 1)
  let p := (monthCells processedData year month).foldl gridStep
    (([] : List (List (Option DayInfo))),
     List.replicate startingDayOfWeek (none : Option DayInfo))
  p.1 ++ [p.2 ++ List.replicate (7 - p.2.length) none]

/-- Number of leading empty cells at the front of a grid row. -/
def countLeadingNone : List (Option DayInfo) → Nat
  | [] => 0
  | none :: rest => countLeadingNone rest + 1
  | some _ :: _ => 0

/-- `isWithinLast7Days(dateKey)`.  `new Date(dateKey)` parses the date-only
key as UTC midnight; both that instant and "now" are floored to local
midnight by `setHours(0,0,0,0)`; the difference is floor-divided by a day.
`tz` is the UTC offset in minutes, `today` the local calendar date of "now". -/
def isWithinLast7Days (tz : Int) (today : Date) (dateKey : Date) : Bool :=
  let parsedEpoch : Int := 1440 * daysFromCivil dateKey
  let selectedMidnight : Int := 1440 * ((parsedEpoch + tz).fdiv 1440) - tz
  let todayMidnight : Int := 1440 * daysFromCivil today - tz
  let diffTime := todayMidnight - selectedMidnight
  let diffDays := diffTime.fdiv 1440
  decide (0 ≤ diffDays ∧ diffDays ≤ 6)

/-- `(dayData?.checkIns.length || 0)` in `handleDayClick`. -/
def dayCheckInCount (dayData : Option DayData) : Nat :=
  match dayData with
  | some d => d.checkIns.length
  | none => 0

/-- `(dayData?.checkOuts.length || 0)` in `handleDayClick`. -/
def dayCheckOutCount (dayData : Option DayData) : Nat :=
  match dayData with
  | some d => d.checkOuts.length
  | none => 0

/-- The allowed-entry derivation inside `handleDayClick`. -/
def determineAllowedLogType (dayData : Option DayData) : Option LogType :=
  let hasCheckIn := dayCheckInCount dayData > 0
  let hasCheckOut := dayCheckOutCount dayData > 0
  if hasCheckIn && hasCheckOut then none
  else if hasCheckIn && !hasCheckOut then some .OUT
  else if !hasCheckIn && hasCheckOut then some .IN
  else some .IN

/-- Left-pad a decimal string to two characters (`String(n).padStart(2,'0')`). -/
def pad2 (s : String) : String :=
  String.mk (List.replicate (2 - s.length) '0') ++ s

/-- The default 12-hour entry time `handleDayClick` puts into the input from
the current wall clock (`hours % 12 || 12`). -/
def formatDefaultEntryTime (now : NaiveDT) : String :=
  let hours := now.minuteOfDay / 60
  let minutes := now.minuteOfDay % 60
  let period := if hours ≥ 12 then "PM" else "AM"
  let hours12 := if hours % 12 = 0 then 12 else hours % 12
  pad2 (toString hours12) ++ ":" ++ pad2 (toString minutes) ++ " " ++ period

/-- The dialog state set by a successful `handleDayClick` (the
`setSelectedDate/setSelectedDayData/setAllowedLogType/setEntryTime/setShowDialog`
group). -/
structure DialogState where
  selectedDate : Date
  selectedDayData : Option DayData
  allowedLogType : Option LogType
  entryTime : String
deriving DecidableEq, BEq, Repr

/-- `handleDayClick(day, dayData)`: outside the 7-day window it returns with
no dialog and no state change (`none`); inside it opens the dialog with the
allowed log type derived from the day's data. -/
def handleDayClick (tz : Int) (today : Date) (now : NaiveDT) (year : Int)
    (month day : Nat) (dayData : Option DayData) : Option DialogState :=
  let dateKey := mkDateKey year month day
  if isWithinLast7Days tz today dateKey then
    some { selectedDate := dateKey
           selectedDayData := dayData
           allowedLogType := determineAllowedLogType dayData
           entryTime := formatDefaultEntryTime now }
  else none

/-- ASCII decimal digit test (`\d`). -/
def isDigitChar (c : Char) : Bool :=
  '0' ≤ c && c ≤ '9'

/-- The regex `/^(\d{1,2}):(\d{2})\s*(AM|PM)$/i` of `handleSubmitEntry`:
on a match, returns the hour digits, the minute digits and the upper-cased
period (the values of `match[1]`, `match[2]`, `match[3].toUpperCase()`). -/
def matchTimePattern (s : String) : Option (String × String × String) :=
  let cs := s.toList
  let hd := cs.takeWhile isDigitChar
  let rest := cs.dropWhile isDigitChar
  if hd.length = 0 ∨ hd.length > 2 then none
  else
    match rest with
    | ':' :: rest2 =>
      let md := rest2.takeWhile isDigitChar
      let rest3 := rest2.dropWhile isDigitChar
      if md.length ≠ 2 then none
      else
        match rest3.dropWhile isSpaceChar with
        | [a, m] =>
          if (a = 'A' ∨ a = 'a') ∧ (m = 'M' ∨ m = 'm') then
            some (String.mk hd, String.mk md, "AM")
          else if (a = 'P' ∨ a = 'p') ∧ (m = 'M' ∨ m = 'm') then
            some (String.mk hd, String.mk md, "PM")
          else none
        | _ => none
    | _ => none

/-- `parseInt(digits, 10)` on a nonempty digit string. -/
def parseIntDec (s : String) : Nat :=
  s.toList.foldl (fun n c => 10 * n + (c.toNat - '0'.toNat)) 0

/-- The 12-to-24-hour conversion of `handleSubmitEntry`: numeric ranges are
never checked, only the textual shape was. -/
def to24Hour (hourStr minuteStr period : String) : String :=
  let hours := parseIntDec hourStr
  let hours :=
    if period = "PM" ∧ hours ≠ 12 then hours + 12
    else if period = "AM" ∧ hours = 12 then 0
    else hours
  pad2 (toString hours) ++ ":" ++ minuteStr

/-- Outcome of `handleSubmitEntry`: either a client-side validation alert
(no network call), or the `frappeService.createDoc('Employee Checkin', ...)`
network request payload. -/
inductive SubmitResult where
  | validationError (message : String)
  | networkRequest (employee : String) (timestamp : String) (log_type : LogType)
deriving DecidableEq, BEq, Repr

/-- `handleSubmitEntry()` up to the point of the network call, as a function
of the dialog state (`entryTime` text, selected date key string, employee,
allowed log type). -/
def handleSubmitEntry (entryTime : String) (selectedDate : Option String)
    (currentEmployee : Option String) (allowedLogType : Option LogType) :
    SubmitResult :=
  if entryTime = "" ∨ selectedDate = none ∨ currentEmployee = none ∨
      allowedLogType = none then
    .validationError "Please enter a valid time"
  else
    match matchTimePattern entryTime with
    | none =>
      .validationError
        "Please enter time in format HH:MM AM/PM (e.g., 09:30 AM or 05:30 PM)"
    | some (h, m, p) =>
      let time24 := to24Hour h m p
      .networkRequest (currentEmployee.getD "")
        ((selectedDate.getD "") ++ " " ++ time24 ++ ":00")
        (allowedLogType.getD .IN)

/-- The component state written by a successful fetch cycle. -/
structure CalendarState where
  monthlyRecords : List EmployeeCheckin
  processedData : List (Date × DayData)
  wfhDates : List Date
  odDates : List Date
deriving DecidableEq, BEq, Repr

/-- The WFH/OD span-expansion loop of `fetchMonthlyRecords`:
`new Date(start)` is UTC midnight, the loop steps one day at a time up to
`new Date(end)` inclusive, and each date key is built from the *local*
components of the instant. -/
def expandApplicationDates (tz : Int) (startDate endDate : Date) : List Date :=
  let ds := daysFromCivil startDate
  let de := daysFromCivil endDate
  (List.range (de - ds + 1).toNat).map (fun i =>
    civilFromDays ((1440 * (ds + (i : Int)) + tz).fdiv 1440))

/-- The rejection reason of `Promise.all` over the four fetches, modelled as
the first failed fetch in array order. -/
def firstFetchError (records : Except String (List EmployeeCheckin))
    (attendanceRecords : Except String (List Attendance))
    (wfhRecords : Except String (List WFHApplication))
    (odRecords : Except String (List ODApplication)) : Option String :=
  match records with
  | .error e => some e
  | .ok _ =>
    match attendanceRecords with
    | .error e => some e
    | .ok _ =>
      match wfhRecords with
      | .error e => some e
      | .ok _ =>
        match odRecords with
        | .error e => some e
        | .ok _ => none

/-- One fetch cycle of `fetchMonthlyRecords`, as a function of the previous
component state and the four fetch outcomes: on success it rebuilds the
WFH/OD date sets, the raw record list and the reconciled data; if any fetch
rejects, the `catch` block fires a single alert and no state is written.
Returns the new state and the alert message (if any). -/
def fetchMonthlyRecords (tz : Int) (prev : CalendarState)
    (records : Except String (List EmployeeCheckin))
    (attendanceRecords : Except String (List Attendance))
    (wfhRecords : Except String (List WFHApplication))
    (odRecords : Except String (List ODApplication)) :
    CalendarState × Option String :=
  match records, attendanceRecords, wfhRecords, odRecords with
  | .ok rs, .ok ars, .ok ws, .ok odl =>
    let wfhDateSet :=
      (ws.map (fun w => expandApplicationDates tz w.wfh_start_date w.wfh_end_date)).flatten
    let odDateSet :=
      (odl.map (fun o => expandApplicationDates tz o.od_start_date o.od_end_date)).flatten
    let processed := processAttendanceData tz rs ars wfhDateSet odDateSet
    ({ monthlyRecords := rs
       processedData := processed
       wfhDates := wfhDateSet
       odDates := odDateSet }, none)
  | r, a, w, o =>
    (prev, (firstFetchError r a w o).map
      (fun e => "Failed to fetch calendar data: " ++ e))

/-- The timestamps a list of checkin records contributes to `checkIns`. -/
def insTimes (cs : List EmployeeCheckin) : List NaiveDT :=
  cs.filterMap (fun r => match r.log_type with
    | .IN => some r.time
    | .OUT => none)

/-- The timestamps a list of checkin records contributes to `checkOuts`. -/
def outTimes (cs : List EmployeeCheckin) : List NaiveDT :=
  cs.filterMap (fun r => match r.log_type with
    | .IN => none
    | .OUT => some r.time)

/-- The `checkIns` sequence the reconciler accumulates for date key `d`:
timestamps of the IN records bucketed (by UTC date) under `d`, in input
order. -/
def bucketedCheckIns (tz : Int) (records : List EmployeeCheckin) (d : Date) :
    List NaiveDT :=
  insTimes (records.filter (fun r => bucketDate tz r.time = d))

/-- The `checkOuts` sequence the reconciler accumulates for date key `d`. -/
def bucketedCheckOuts (tz : Int) (records : List EmployeeCheckin) (d : Date) :
    List NaiveDT :=
  outTimes (records.filter (fun r => bucketDate tz r.time = d))

theorem lookupDay_insertDay_same (m : List (Date × DayData)) (d : Date)
    (v : DayData) : lookupDay (insertDay m d v) d = some v := by
  induction m with
  | nil => simp [insertDay, lookupDay]
  | cons p rest ih =>
    obtain ⟨k, w⟩ := p
    by_cases h : k = d <;> simp [insertDay, lookupDay, h, ih]

theorem lookupDay_insertDay_other (m : List (Date × DayData)) (d d' : Date)
    (v : DayData) (h : d' ≠ d) :
    lookupDay (insertDay m d' v) d = lookupDay m d := by
  induction m with
  | nil => simp [insertDay, lookupDay, h]
  | cons p rest ih =>
    obtain ⟨k, w⟩ := p
    by_cases hk : k = d'
    · subst hk
      simp [insertDay, lookupDay, h, ih]
    · by_cases hkd : k = d <;>
        simp [insertDay, lookupDay, hk, hkd, Ne.symm h, ih]

theorem lookupDay_attPass (wfhDateSet odDateSet : List Date)
    (recs : List Attendance) (m : List (Date × DayData)) (d : Date) :
    lookupDay (recs.foldl (attStep wfhDateSet odDateSet) m) d =
      (recs.filter (fun r => r.attendance_date = some d)).foldl
        (fun c r => some (applyAttendanceStatus (normAtt r.status)
          (c.getD (seedDay wfhDateSet odDateSet d)))) (lookupDay m d) := by
  induction recs generalizing m with
  | nil => rfl
  | cons r rest ih =>
    rw [List.foldl_cons, List.filter_cons]
    cases hr : r.attendance_date with
    | none =>
      have hstep : attStep wfhDateSet odDateSet m r = m := by
        simp [attStep, hr]
      simp [hstep, hr, ih]
    | some d' =>
      by_cases hd : d' = d
      · subst hd
        have hstep : attStep wfhDateSet odDateSet m r =
            insertDay m d' (applyAttendanceStatus (normAtt r.status)
              ((lookupDay m d').getD (seedDay wfhDateSet odDateSet d'))) := by
          simp [attStep, hr]
        rw [hstep, ih, lookupDay_insertDay_same]
        simp [hr]
      · have hstep : attStep wfhDateSet odDateSet m r =
            insertDay m d' (applyAttendanceStatus (normAtt r.status)
              ((lookupDay m d').getD (seedDay wfhDateSet odDateSet d'))) := by
          simp [attStep, hr]
        rw [hstep, ih, lookupDay_insertDay_other _ _ _ _ hd]
        simp [hr, hd]

theorem lookupDay_cinPass (tz : Int) (wfhDateSet odDateSet : List Date)
    (recs : List EmployeeCheckin) (m : List (Date × DayData)) (d : Date) :
    lookupDay (recs.foldl (cinStep tz wfhDateSet odDateSet) m) d =
      (recs.filter (fun r => bucketDate tz r.time = d)).foldl
        (fun c r => some (applyCheckin r
          (c.getD (seedDay wfhDateSet odDateSet d)))) (lookupDay m d) := by
  induction recs generalizing m with
  | nil => rfl
  | cons r rest ih =>
    rw [List.foldl_cons, List.filter_cons]
    by_cases hd : bucketDate tz r.time = d
    · have hstep : cinStep tz wfhDateSet odDateSet m r =
          insertDay m d (applyCheckin r
            ((lookupDay m d).getD (seedDay wfhDateSet odDateSet d))) := by
        simp [cinStep, hd]
      rw [hstep, ih, lookupDay_insertDay_same]
      simp [hd]
    · have hstep : cinStep tz wfhDateSet odDateSet m r =
          insertDay m (bucketDate tz r.time) (applyCheckin r
            ((lookupDay m (bucketDate tz r.time)).getD
              (seedDay wfhDateSet odDateSet (bucketDate tz r.time)))) := by
        simp [cinStep]
      rw [hstep, ih, lookupDay_insertDay_other _ _ _ _ hd]
      simp [hd]

theorem lookupDay_mapFinal (m : List (Date × DayData)) (d : Date) :
    lookupDay (m.map (fun p => (p.1, deriveFinal p.2))) d =
      (lookupDay m d).map deriveFinal := by
  induction m with
  | nil => rfl
  | cons p rest ih =>
    obtain ⟨k, v⟩ := p
    by_cases h : k = d <;> simp [lookupDay, h, ih]

/-- Closed form of a reconciler lookup: the entry for date key `d` is the
Attendance records dated `d` folded into a fresh seed, then the check-events
bucketed under `d`, then the final-status pass; `none` when no input touches
`d`. -/
theorem processAttendanceData_lookup (tz : Int)
    (records : List EmployeeCheckin) (attendanceRecords : List Attendance)
    (wfhDateSet odDateSet : List Date) (d : Date) :
    lookupDay (processAttendanceData tz records attendanceRecords
        wfhDateSet odDateSet) d =
      ((records.filter (fun r => bucketDate tz r.time = d)).foldl
        (fun c r => some (applyCheckin r
          (c.getD (seedDay wfhDateSet odDateSet d))))
        ((attendanceRecords.filter (fun r => r.attendance_date = some d)).foldl
          (fun c r => some (applyAttendanceStatus (normAtt r.status)
            (c.getD (seedDay wfhDateSet odDateSet d)))) none)).map deriveFinal := by
  unfold processAttendanceData
  rw [lookupDay_mapFinal, lookupDay_cinPass, lookupDay_attPass]
  rfl

theorem cinFold_some (wfhDateSet odDateSet : List Date) (d : Date)
    (cs : List EmployeeCheckin) (c0 : DayData) :
    cs.foldl (fun c r => some (applyCheckin r
        (c.getD (seedDay wfhDateSet odDateSet d)))) (some c0) =
      some { c0 with checkIns := c0.checkIns ++ insTimes cs,
                     checkOuts := c0.checkOuts ++ outTimes cs } := by
  induction cs generalizing c0 with
  | nil => simp [insTimes, outTimes]
  | cons r rest ih =>
    rw [List.foldl_cons]
    simp only [Option.getD_some]
    rw [ih]
    cases hlt : r.log_type <;>
      simp [applyCheckin, insTimes, outTimes, hlt, List.filterMap_cons]

theorem deriveFinal_fields (dd : DayData) :
    (deriveFinal dd).checkIns = dd.checkIns ∧
    (deriveFinal dd).checkOuts = dd.checkOuts ∧
    (deriveFinal dd).attendanceStatus = dd.attendanceStatus := by
  simp only [deriveFinal]
  split_ifs <;> exact ⟨rfl, rfl, rfl⟩

theorem deriveFinal_status (dd : DayData)
    (h : ¬(dd.attendanceStatus = some "on_leave" ∨
           dd.attendanceStatus = some "half_day" ∨
           dd.attendanceStatus = some "work_from_home")) :
    (deriveFinal dd).status =
      if 0 < dd.checkIns.length ∧ 0 < dd.checkOuts.length then
        (if dd.checkIns.length ≤ dd.checkOuts.length then DayStatus.present
         else DayStatus.incomplete)
      else if 0 < dd.checkIns.length ∨ 0 < dd.checkOuts.length then
        DayStatus.incomplete
      else if jsTruthy dd.attendanceStatus then dd.status
      else DayStatus.absent := by
  push_neg at h
  obtain ⟨h1, h2, h3⟩ := h
  simp only [deriveFinal, beq_iff_eq, h1, h2, h3]
  split_ifs <;> simp_all

/-- C2: for every date key in the reconciled map whose entry does not carry
an authoritative AttendanceRecord status of `on_leave`/`half_day`/
`work_from_home`, the resolved status is derived from the check-event counts:
Present when both kinds exist and outs ≥ ins; Incomplete when both exist but
outs < ins, or when only one kind exists; Absent when neither exists and no
authoritative record exists. -/
theorem derived_status_from_check_events (tz : Int)
    (records : List EmployeeCheckin) (attendanceRecords : List Attendance)
    (wfhDateSet odDateSet : List Date) (d : Date) (dd : DayData)
    (hl : lookupDay (processAttendanceData tz records attendanceRecords
      wfhDateSet odDateSet) d = some dd)
    (hna : ¬(dd.attendanceStatus = some "on_leave" ∨
             dd.attendanceStatus = some "half_day" ∨
             dd.attendanceStatus = some "work_from_home")) :
    (0 < dd.checkIns.length → 0 < dd.checkOuts.length →
      dd.checkIns.length ≤ dd.checkOuts.length → dd.status = DayStatus.present) ∧
    (0 < dd.checkIns.length → 0 < dd.checkOuts.length →
      dd.checkOuts.length < dd.checkIns.length → dd.status = DayStatus.incomplete) ∧
    (0 < dd.checkIns.length → dd.checkOuts.length = 0 →
      dd.status = DayStatus.incomplete) ∧
    (dd.checkIns.length = 0 → 0 < dd.checkOuts.length →
      dd.status = DayStatus.incomplete) ∧
    (dd.checkIns.length = 0 → dd.checkOuts.length = 0 →
      dd.attendanceStatus = none → dd.status = DayStatus.absent) := by
  simp only [processAttendanceData] at hl
  rw [lookupDay_mapFinal] at hl
  obtain ⟨dd0, hdd0, rfl⟩ := Option.map_eq_some'.mp hl
  obtain ⟨hcIns, hcOuts, hatt⟩ := deriveFinal_fields dd0
  rw [hatt] at hna
  have hst := deriveFinal_status dd0 hna
  rw [hcIns, hcOuts, hatt, hst]
  refine ⟨?_, ?_, ?_, ?_, ?_⟩ <;> intros <;> split_ifs <;>
    first
    | rfl
    | omega
    | simp_all [jsTruthy]

/-- Witness for C2 at a concrete input: one IN and one OUT on 2024-03-10,
no Attendance record, resolves to Present. -/
theorem derived_status_from_check_events_witness :
    ∃ dd, lookupDay (processAttendanceData 0
      [{ employee := "EMP-0001", time := ⟨⟨2024,3,10⟩,540⟩, log_type := .IN },
       { employee := "EMP-0001", time := ⟨⟨2024,3,10⟩,1080⟩, log_type := .OUT }]
      [] [] []) ⟨2024,3,10⟩ = some dd ∧ dd.status = DayStatus.present := by
  refine ⟨{ date := ⟨2024,3,10⟩, checkIns := [⟨⟨2024,3,10⟩,540⟩],
            checkOuts := [⟨⟨2024,3,10⟩,1080⟩], status := DayStatus.present,
            attendanceStatus := none, isWFH := false, isOD := false },
    by decide, ?_⟩
  exact (derived_status_from_check_events 0
    [{ employee := "EMP-0001", time := ⟨⟨2024,3,10⟩,540⟩, log_type := .IN },
     { employee := "EMP-0001", time := ⟨⟨2024,3,10⟩,1080⟩, log_type := .OUT }]
    [] [] [] ⟨2024,3,10⟩ _ (by decide) (by decide)).1 (by decide) (by decide)
    (by decide)

/-- Counterexample to C1: a date with an official `Absent` Attendance record
and one check-in but no check-out resolves to `incomplete`, not `absent` —
the final-status pass only preserves on_leave/half_day/work_from_home. -/
theorem absent_record_with_checkin_not_absent :
    (lookupDay (processAttendanceData 0
        [{ employee := "EMP-0001", time := ⟨⟨2024,3,10⟩,540⟩, log_type := .IN }]
        [{ employee := "EMP-0001", attendance_date := some ⟨2024,3,10⟩,
           status := some "Absent" }] [] []) ⟨2024,3,10⟩).map
      (fun dd => dd.status) = some DayStatus.incomplete ∧
    some DayStatus.incomplete ≠ some DayStatus.absent := by
  exact ⟨by decide, by decide⟩

/-- C1 (amended): an AttendanceRecord with status Present or Absent fixes the
resolved status only when no check-events are bucketed to its date; when
check-events exist, the status is re-derived from the check-event counts
exactly as for a day without an authoritative record. -/
theorem attendance_present_absent_precedence (tz : Int)
    (records : List EmployeeCheckin) (attendanceRecords : List Attendance)
    (wfhDateSet odDateSet : List Date) (d : Date) (r : Attendance) (st : String)
    (hr : attendanceRecords.filter (fun a => a.attendance_date = some d) = [r])
    (hs : normAtt r.status = some st)
    (hpa : st = "present" ∨ st = "absent") :
    ∃ dd, lookupDay (processAttendanceData tz records attendanceRecords
        wfhDateSet odDateSet) d = some dd ∧
      dd.attendanceStatus = some st ∧
      dd.checkIns = bucketedCheckIns tz records d ∧
      dd.checkOuts = bucketedCheckOuts tz records d ∧
      dd.status =
        (if 0 < (bucketedCheckIns tz records d).length ∧
            0 < (bucketedCheckOuts tz records d).length then
          (if (bucketedCheckIns tz records d).length ≤
              (bucketedCheckOuts tz records d).length then DayStatus.present
           else DayStatus.incomplete)
         else if 0 < (bucketedCheckIns tz records d).length ∨
            0 < (bucketedCheckOuts tz records d).length then DayStatus.incomplete
         else if st = "present" then DayStatus.present else DayStatus.absent) := by
  have happ : applyAttendanceStatus (some st) (seedDay wfhDateSet odDateSet d) =
      { seedDay wfhDateSet odDateSet d with
          attendanceStatus := some st
          status := (if st = "present" then DayStatus.present
                     else DayStatus.absent) } := by
    rcases hpa with h | h <;> subst h <;> simp [applyAttendanceStatus]
  rw [processAttendanceData_lookup, hr]
  simp only [List.foldl_cons, List.foldl_nil, Option.getD_none]
  rw [hs, happ, cinFold_some]
  simp only [Option.map_some']
  refine ⟨_, rfl, ?_, ?_, ?_, ?_⟩
  · rw [(deriveFinal_fields _).2.2]
  · rw [(deriveFinal_fields _).1]
    simp [seedDay, bucketedCheckIns]
  · rw [(deriveFinal_fields _).2.1]
    simp [seedDay, bucketedCheckOuts]
  · rw [deriveFinal_status]
    · have hne : st ≠ "" := by rcases hpa with h | h <;> subst h <;> decide
      simp only [seedDay, bucketedCheckIns, bucketedCheckOuts,
        List.nil_append, jsTruthy]
      split_ifs <;> simp_all
    · rcases hpa with h | h <;> subst h <;> simp

/-- Witness for the amended C1 at a concrete input: an official `Present`
record on 2024-03-09 with no check-events resolves to Present. -/
theorem attendance_present_absent_precedence_witness :
    ∃ dd, lookupDay (processAttendanceData 0 []
        [{ employee := "EMP-0001", attendance_date := some ⟨2024,3,9⟩,
           status := some "Present" }] [] []) ⟨2024,3,9⟩ = some dd ∧
      dd.attendanceStatus = some "present" ∧
      dd.checkIns = bucketedCheckIns 0 [] ⟨2024,3,9⟩ ∧
      dd.checkOuts = bucketedCheckOuts 0 [] ⟨2024,3,9⟩ ∧
      dd.status =
        (if 0 < (bucketedCheckIns 0 [] ⟨2024,3,9⟩).length ∧
            0 < (bucketedCheckOuts 0 [] ⟨2024,3,9⟩).length then
          (if (bucketedCheckIns 0 [] ⟨2024,3,9⟩).length ≤
              (bucketedCheckOuts 0 [] ⟨2024,3,9⟩).length then DayStatus.present
           else DayStatus.incomplete)
         else if 0 < (bucketedCheckIns 0 [] ⟨2024,3,9⟩).length ∨
            0 < (bucketedCheckOuts 0 [] ⟨2024,3,9⟩).length then
           DayStatus.incomplete
         else if "present" = "present" then DayStatus.present
         else DayStatus.absent) :=
  attendance_present_absent_precedence 0 []
    [{ employee := "EMP-0001", attendance_date := some ⟨2024,3,9⟩,
       status := some "Present" }] [] [] ⟨2024,3,9⟩
    { employee := "EMP-0001", attendance_date := some ⟨2024,3,9⟩,
      status := some "Present" } "present"
    (by decide) (by decide) (Or.inl rfl)

/-- Counterexample to C9: a date whose Attendance status normalizes to the
unrecognized value "holiday", with one check-in bucketed to the same date,
resolves to `incomplete`, not `absent`. -/
theorem unrecognized_status_with_checkin_counterexample :
    normalizeStatus "Holiday" = "holiday" ∧
    (lookupDay (processAttendanceData 0
        [{ employee := "EMP-0001", time := ⟨⟨2024,3,10⟩,540⟩, log_type := .IN }]
        [{ employee := "EMP-0001", attendance_date := some ⟨2024,3,10⟩,
           status := some "Holiday" }] [] []) ⟨2024,3,10⟩).map
      (fun dd => dd.status) = some DayStatus.incomplete ∧
    some DayStatus.incomplete ≠ some DayStatus.absent := by
  exact ⟨by decide, by decide, by decide⟩

/-- C9 (amended): a date whose AttendanceRecord status normalizes to a value
outside {on_leave, half_day, work_from_home, present, absent} resolves to
Absent when no check-events are bucketed to that date; when check-events
exist, the status is derived from their counts instead. -/
theorem unrecognized_status_falls_to_absent (tz : Int)
    (records : List EmployeeCheckin) (attendanceRecords : List Attendance)
    (wfhDateSet odDateSet : List Date) (d : Date) (r : Attendance)
    (hr : attendanceRecords.filter (fun a => a.attendance_date = some d) = [r])
    (hunrec : normAtt r.status ∉ ([some "on_leave", some "half_day",
      some "work_from_home", some "present", some "absent"] :
        List (Option String))) :
    ∃ dd, lookupDay (processAttendanceData tz records attendanceRecords
        wfhDateSet odDateSet) d = some dd ∧
      dd.attendanceStatus = normAtt r.status ∧
      dd.status =
        (if 0 < (bucketedCheckIns tz records d).length ∧
            0 < (bucketedCheckOuts tz records d).length then
          (if (bucketedCheckIns tz records d).length ≤
              (bucketedCheckOuts tz records d).length then DayStatus.present
           else DayStatus.incomplete)
         else if 0 < (bucketedCheckIns tz records d).length ∨
            0 < (bucketedCheckOuts tz records d).length then
           DayStatus.incomplete
         else DayStatus.absent) := by
  simp only [List.mem_cons, List.mem_singleton, not_or] at hunrec
  obtain ⟨h1, h2, h3, h4, h5⟩ := hunrec
  have happ : applyAttendanceStatus (normAtt r.status)
      (seedDay wfhDateSet odDateSet d) =
      { seedDay wfhDateSet odDateSet d with
          attendanceStatus := normAtt r.status } := by
    simp [applyAttendanceStatus, h1, h2, h3, h4, h5]
  rw [processAttendanceData_lookup, hr]
  simp only [List.foldl_cons, List.foldl_nil, Option.getD_none]
  rw [happ, cinFold_some]
  simp only [Option.map_some']
  refine ⟨_, rfl, ?_, ?_⟩
  · rw [(deriveFinal_fields _).2.2]
  · rw [deriveFinal_status]
    · simp only [seedDay, bucketedCheckIns, bucketedCheckOuts,
        List.nil_append]
      split_ifs <;> simp_all
    · simp [h1, h2, h3]

/-- Witness for the amended C9 at a concrete input: an unrecognized status
"Holiday" on 2024-03-11 with no check-events resolves to Absent. -/
theorem unrecognized_status_falls_to_absent_witness :
    ∃ dd, lookupDay (processAttendanceData 0 []
        [{ employee := "EMP-0001", attendance_date := some ⟨2024,3,11⟩,
           status := some "Holiday" }] [] []) ⟨2024,3,11⟩ = some dd ∧
      dd.attendanceStatus = normAtt (some "Holiday") ∧
      dd.status =
        (if 0 < (bucketedCheckIns 0 [] ⟨2024,3,11⟩).length ∧
            0 < (bucketedCheckOuts 0 [] ⟨2024,3,11⟩).length then
          (if (bucketedCheckIns 0 [] ⟨2024,3,11⟩).length ≤
              (bucketedCheckOuts 0 [] ⟨2024,3,11⟩).length then DayStatus.present
           else DayStatus.incomplete)
         else if 0 < (bucketedCheckIns 0 [] ⟨2024,3,11⟩).length ∨
            0 < (bucketedCheckOuts 0 [] ⟨2024,3,11⟩).length then
           DayStatus.incomplete
         else DayStatus.absent) :=
  unrecognized_status_falls_to_absent 0 []
    [{ employee := "EMP-0001", attendance_date := some ⟨2024,3,11⟩,
       status := some "Holiday" }] [] [] ⟨2024,3,11⟩
    { employee := "EMP-0001", attendance_date := some ⟨2024,3,11⟩,
      status := some "Holiday" }
    (by decide) (by decide)

/-- Counterexample to C3: in a runtime at UTC offset +330 minutes (IST), a
check-event with local wall-clock timestamp 2024-03-01 02:00 is bucketed
under 2024-02-29 (the UTC date of the instant), not under its local calendar
date 2024-03-01: the reconciled map has no entry for 2024-03-01 and counts
the event under 2024-02-29. -/
theorem check_event_bucketed_to_utc_date_counterexample :
    bucketDate 330 ⟨⟨2024,3,1⟩,120⟩ = ⟨2024,2,29⟩ ∧
    (⟨2024,2,29⟩ : Date) ≠ ⟨2024,3,1⟩ ∧
    lookupDay (processAttendanceData 330
        [{ employee := "EMP-0001", time := ⟨⟨2024,3,1⟩,120⟩, log_type := .IN }]
        [] [] []) ⟨2024,3,1⟩ = none ∧
    (lookupDay (processAttendanceData 330
        [{ employee := "EMP-0001", time := ⟨⟨2024,3,1⟩,120⟩, log_type := .IN }]
        [] [] []) ⟨2024,2,29⟩).map (fun dd => dd.checkIns.length) = some 1 := by
  exact ⟨by decide, by decide, by decide, by decide⟩

/-- C3 (amended): a check-event is bucketed under the UTC calendar date of
its parsed timestamp (`toISOString` date component); since the naive
timestamp is parsed as local time, the bucket day number is the event's
local day number exactly when `minuteOfDay - tzOffset` stays within the day,
i.e. the local and UTC dates coincide iff `0 ≤ minuteOfDay - tz < 1440`. -/
theorem check_event_bucket_day_characterization (tz : Int) (t : NaiveDT) :
    bucketDate tz t = civilFromDays ((epochMinutes tz t).fdiv 1440) ∧
    ((epochMinutes tz t).fdiv 1440 = daysFromCivil t.date ↔
      0 ≤ (t.minuteOfDay : Int) - tz ∧ (t.minuteOfDay : Int) - tz < 1440) := by
  refine ⟨rfl, ?_⟩
  unfold epochMinutes
  rw [Int.fdiv_eq_ediv _ (by norm_num)]
  constructor
  · intro h
    constructor <;> omega
  · intro h
    omega

theorem isWithinLast7Days_iff (tz : Int) (today dateKey : Date)
    (h0 : 0 ≤ tz) (h1 : tz < 1440) :
    (isWithinLast7Days tz today dateKey = true ↔
      daysFromCivil today - 6 ≤ daysFromCivil dateKey ∧
      daysFromCivil dateKey ≤ daysFromCivil today) := by
  simp only [isWithinLast7Days, decide_eq_true_iff]
  rw [Int.fdiv_eq_ediv _ (by norm_num), Int.fdiv_eq_ediv _ (by norm_num)]
  omega

/-- C4: with the runtime at or east of UTC (offset `0 ≤ tz < 1440` minutes,
which in particular covers the organization's IST offset +330), a tapped day
opens the entry dialog iff its date lies in the inclusive 7-calendar-day
window [today - 6, today]; a tap outside the window returns `none`: no
dialog and no state change. -/
theorem edit_window_gate (tz : Int) (today : Date) (now : NaiveDT)
    (year : Int) (month day : Nat) (dayData : Option DayData)
    (h0 : 0 ≤ tz) (h1 : tz < 1440) :
    ((handleDayClick tz today now year month day dayData).isSome = true ↔
      (daysFromCivil today - 6 ≤ daysFromCivil (mkDateKey year month day) ∧
       daysFromCivil (mkDateKey year month day) ≤ daysFromCivil today)) ∧
    (isWithinLast7Days tz today (mkDateKey year month day) = false →
      handleDayClick tz today now year month day dayData = none) := by
  constructor
  · rw [← isWithinLast7Days_iff tz today (mkDateKey year month day) h0 h1]
    by_cases h : isWithinLast7Days tz today (mkDateKey year month day) = true <;>
      simp [handleDayClick, h]
  · intro h
    simp [handleDayClick, h]

/-- Witness for C4 at the spec's concrete dates (IST offset, today =
2024-03-15): 2024-03-09 is editable, 2024-03-08 is not and the tap is a
silent no-op. -/
theorem edit_window_gate_witness :
    (0 ≤ (330 : Int) ∧ (330 : Int) < 1440) ∧
    (handleDayClick 330 ⟨2024,3,15⟩ ⟨⟨2024,3,15⟩,600⟩ 2024 3 9 none).isSome
      = true ∧
    isWithinLast7Days 330 ⟨2024,3,15⟩ (mkDateKey 2024 3 8) = false ∧
    handleDayClick 330 ⟨2024,3,15⟩ ⟨⟨2024,3,15⟩,600⟩ 2024 3 8 none = none :=
  ⟨⟨by decide, by decide⟩,
   ((edit_window_gate 330 ⟨2024,3,15⟩ ⟨⟨2024,3,15⟩,600⟩ 2024 3 9 none
      (by decide) (by decide)).1).mpr (by decide),
   by decide,
   (edit_window_gate 330 ⟨2024,3,15⟩ ⟨⟨2024,3,15⟩,600⟩ 2024 3 8 none
      (by decide) (by decide)).2 (by decide)⟩

theorem gridFold_inv (cells : List DayInfo) (ws : List (List (Option DayInfo)))
    (cw : List (Option DayInfo))
    (hws : ∀ row ∈ ws, row.length = 7) (hcw : cw.length ≤ 7) :
    (∀ row ∈ (cells.foldl gridStep (ws, cw)).1, row.length = 7) ∧
    (cells.foldl gridStep (ws, cw)).2.length ≤ 7 ∧
    ((cells.foldl gridStep (ws, cw)).1.flatten ++
        (cells.foldl gridStep (ws, cw)).2 =
      ws.flatten ++ cw ++ cells.map some) ∧
    ((cells ≠ [] ∨ cw ≠ []) → (cells.foldl gridStep (ws, cw)).2 ≠ []) := by
  induction cells generalizing ws cw with
  | nil =>
    refine ⟨hws, hcw, by simp, ?_⟩
    rintro (h | h)
    · exact absurd rfl h
    · exact h
  | cons c rest ih =>
    rw [List.foldl_cons]
    by_cases h7 : cw.length = 7
    · have hstep : gridStep (ws, cw) c = (ws ++ [cw], [some c]) := by
        simp [gridStep, h7]
      rw [hstep]
      have hws' : ∀ row ∈ ws ++ [cw], row.length = 7 := by
        intro row hrow
        rcases List.mem_append.mp hrow with h | h
        · exact hws row h
        · simp only [List.mem_singleton] at h
          subst h; exact h7
      obtain ⟨i1, i2, i3, i4⟩ := ih (ws ++ [cw]) [some c] hws' (by simp)
      refine ⟨i1, i2, ?_, ?_⟩
      · rw [i3]
        simp [List.append_assoc]
      · intro _
        exact i4 (Or.inr (by simp))
    · have hstep : gridStep (ws, cw) c = (ws, cw ++ [some c]) := by
        simp [gridStep, h7]
      rw [hstep]
      obtain ⟨i1, i2, i3, i4⟩ := ih ws (cw ++ [some c]) hws
        (by simp only [List.length_append, List.length_singleton]; omega)
      refine ⟨i1, i2, ?_, ?_⟩
      · rw [i3]
        simp [List.append_assoc]
      · intro _
        exact i4 (Or.inr (by simp))

theorem weekday_lt (d : Date) : weekday d < 7 := by
  unfold weekday
  omega

theorem daysInMonth_pos (y : Int) (m : Nat) : 0 < daysInMonth y m := by
  unfold daysInMonth
  split_ifs <;> norm_num

set_option maxRecDepth 100000

/-- C5: the calendar grid builder emits rows of exactly 7 cells; flattened,
the grid is exactly `weekday(first of month)` leading blanks, then one cell
per calendar day in order, then at most 6 trailing blanks padding the last
row.  For March 2025 (31 days, starting Saturday) the grid is exactly 6 rows
of 7 cells with exactly 6 leading blanks. -/
theorem calendar_grid_shape (pd : List (Date × DayData)) (y : Int) (m : Nat) :
    (∀ row ∈ renderCalendarGrid pd y m, row.length = 7) ∧
    (monthCells pd y m).length = daysInMonth y m ∧
    (∃ k, k ≤ 6 ∧ (renderCalendarGrid pd y m).flatten =
      List.replicate (weekday (mkDateKey y m 1)) (none : Option DayInfo) ++
        (monthCells pd y m).map some ++ List.replicate k none) ∧
    ((renderCalendarGrid [] 2025 3).length = 6 ∧
     (renderCalendarGrid [] 2025 3).map List.length = [7, 7, 7, 7, 7, 7] ∧
     countLeadingNone ((renderCalendarGrid [] 2025 3).headD []) = 6 ∧
     daysInMonth 2025 3 = 31 ∧ weekday (mkDateKey 2025 3 1) = 6) := by
  have hcl : (monthCells pd y m).length = daysInMonth y m := by
    simp [monthCells]
  have hpos := daysInMonth_pos y m
  have hcells : monthCells pd y m ≠ [] := by
    intro h
    rw [h] at hcl
    simp only [List.length_nil] at hcl
    omega
  have hwk := weekday_lt (mkDateKey y m 1)
  obtain ⟨i1, i2, i3, i4⟩ := gridFold_inv (monthCells pd y m) []
    (List.replicate (weekday (mkDateKey y m 1)) none)
    (by simp) (by simp only [List.length_replicate]; omega)
  have hne := i4 (Or.inl hcells)
  have hlen1 := List.length_pos.mpr hne
  have hrcg : renderCalendarGrid pd y m =
      ((monthCells pd y m).foldl gridStep
        ([], List.replicate (weekday (mkDateKey y m 1)) none)).1 ++
      [((monthCells pd y m).foldl gridStep
          ([], List.replicate (weekday (mkDateKey y m 1)) none)).2 ++
        List.replicate (7 - ((monthCells pd y m).foldl gridStep
          ([], List.replicate (weekday (mkDateKey y m 1)) none)).2.length)
          none] := rfl
  refine ⟨?_, hcl, ?_, by decide, by decide, by decide, by decide, by decide⟩
  · intro row hrow
    rw [hrcg] at hrow
    rcases List.mem_append.mp hrow with h | h
    · exact i1 row h
    · simp only [List.mem_singleton] at h
      subst h
      simp only [List.length_append, List.length_replicate]
      omega
  · refine ⟨7 - ((monthCells pd y m).foldl gridStep
      ([], List.replicate (weekday (mkDateKey y m 1)) none)).2.length,
      by omega, ?_⟩
    rw [hrcg, List.flatten_append]
    simp only [List.flatten_cons, List.flatten_nil, List.append_nil]
    rw [← List.append_assoc, i3]
    simp [List.append_assoc]

/-- C6: when any of the four fetches of a refresh cycle fails, the cycle
produces a single alert "Failed to fetch calendar data: <message>" and the
component state — including the reconciled per-day data — is exactly the
previous state: reconciliation is skipped entirely, never partially computed
from the fetches that succeeded. -/
theorem fetch_failure_atomicity (tz : Int) (prev : CalendarState)
    (records : Except String (List EmployeeCheckin))
    (attendanceRecords : Except String (List Attendance))
    (wfhRecords : Except String (List WFHApplication))
    (odRecords : Except String (List ODApplication)) (e : String)
    (he : firstFetchError records attendanceRecords wfhRecords odRecords =
      some e) :
    fetchMonthlyRecords tz prev records attendanceRecords wfhRecords
      odRecords = (prev, some ("Failed to fetch calendar data: " ++ e)) := by
  cases records <;> cases attendanceRecords <;> cases wfhRecords <;>
    cases odRecords <;> simp_all [fetchMonthlyRecords, firstFetchError]

/-- Witness for C6: a failing check-in fetch leaves a nonempty previous state
untouched and fires the single alert. -/
theorem fetch_failure_atomicity_witness :
    fetchMonthlyRecords 330
      { monthlyRecords := []
        processedData := [(⟨2024,3,10⟩,
          { date := ⟨2024,3,10⟩, checkIns := [], checkOuts := [],
            status := DayStatus.present, attendanceStatus := some "present",
            isWFH := false, isOD := false })]
        wfhDates := []
        odDates := [] }
      (Except.error "Network request failed") (Except.ok []) (Except.ok [])
      (Except.ok []) =
      ({ monthlyRecords := []
         processedData := [(⟨2024,3,10⟩,
           { date := ⟨2024,3,10⟩, checkIns := [], checkOuts := [],
             status := DayStatus.present, attendanceStatus := some "present",
             isWFH := false, isOD := false })]
         wfhDates := []
         odDates := [] },
       some ("Failed to fetch calendar data: " ++ "Network request failed")) :=
  fetch_failure_atomicity 330 _ _ _ _ _ "Network request failed" rfl

/-- C7: an entry-time text that does not match the 12-hour
`HH:MM AM/PM` pattern is rejected client-side with a validation message;
no network request payload is produced. -/
theorem malformed_time_rejected (entryTime : String)
    (selectedDate currentEmployee : Option String)
    (allowedLogType : Option LogType)
    (h : matchTimePattern entryTime = none) :
    ∃ msg, handleSubmitEntry entryTime selectedDate currentEmployee
      allowedLogType = SubmitResult.validationError msg := by
  unfold handleSubmitEntry
  split_ifs with hg
  · exact ⟨_, rfl⟩
  · rw [h]
    exact ⟨_, rfl⟩

/-- Witness for C7: submitting "25:99" fails the pattern and is rejected
with the format validation message. -/
theorem malformed_time_rejected_witness :
    matchTimePattern "25:99" = none ∧
    ∃ msg, handleSubmitEntry "25:99" (some "2024-03-10") (some "EMP-0001")
      (some LogType.IN) = SubmitResult.validationError msg :=
  ⟨by decide, malformed_time_rejected "25:99" (some "2024-03-10")
    (some "EMP-0001") (some LogType.IN) (by decide)⟩

theorem determineAllowedLogType_spec (dayData : Option DayData) :
    (dayCheckInCount dayData = 0 → dayCheckOutCount dayData = 0 →
      determineAllowedLogType dayData = some LogType.IN) ∧
    (0 < dayCheckInCount dayData → dayCheckOutCount dayData = 0 →
      determineAllowedLogType dayData = some LogType.OUT) ∧
    (dayCheckInCount dayData = 0 → 0 < dayCheckOutCount dayData →
      determineAllowedLogType dayData = some LogType.IN) ∧
    (0 < dayCheckInCount dayData → 0 < dayCheckOutCount dayData →
      determineAllowedLogType dayData = none) := by
  refine ⟨?_, ?_, ?_, ?_⟩ <;> intro h1 h2 <;>
    simp [determineAllowedLogType, h1, h2]

/-- C8: for a tapped day inside the edit window, the dialog opens and the
allowed entry type is derived from the day's data: nothing → IN; only
check-in → OUT; only check-out → IN; both → no entry allowed (`none`, the
read-only already-complete dialog state). -/
theorem allowed_entry_type (tz : Int) (today : Date) (now : NaiveDT)
    (year : Int) (month day : Nat) (dayData : Option DayData)
    (hwin : isWithinLast7Days tz today (mkDateKey year month day) = true) :
    ∃ st, handleDayClick tz today now year month day dayData = some st ∧
      (dayCheckInCount dayData = 0 → dayCheckOutCount dayData = 0 →
        st.allowedLogType = some LogType.IN) ∧
      (0 < dayCheckInCount dayData → dayCheckOutCount dayData = 0 →
        st.allowedLogType = some LogType.OUT) ∧
      (dayCheckInCount dayData = 0 → 0 < dayCheckOutCount dayData →
        st.allowedLogType = some LogType.IN) ∧
      (0 < dayCheckInCount dayData → 0 < dayCheckOutCount dayData →
        st.allowedLogType = none) := by
  obtain ⟨a1, a2, a3, a4⟩ := determineAllowedLogType_spec dayData
  refine ⟨{ selectedDate := mkDateKey year month day
            selectedDayData := dayData
            allowedLogType := determineAllowedLogType dayData
            entryTime := formatDefaultEntryTime now }, ?_, a1, a2, a3, a4⟩
  simp [handleDayClick, hwin]

/-- Witness for C8: tapping today (in window) with one check-in and no
check-out allows exactly a check-out entry. -/
theorem allowed_entry_type_witness :
    isWithinLast7Days 330 ⟨2024,3,15⟩ (mkDateKey 2024 3 15) = true ∧
    ∃ st, handleDayClick 330 ⟨2024,3,15⟩ ⟨⟨2024,3,15⟩,600⟩ 2024 3 15
        (some ⟨⟨2024,3,15⟩, [⟨⟨2024,3,15⟩,540⟩], [], DayStatus.incomplete,
          none, false, false⟩) = some st ∧
      (dayCheckInCount (some ⟨⟨2024,3,15⟩, [⟨⟨2024,3,15⟩,540⟩], [],
          DayStatus.incomplete, none, false, false⟩) = 0 →
        dayCheckOutCount (some ⟨⟨2024,3,15⟩, [⟨⟨2024,3,15⟩,540⟩], [],
          DayStatus.incomplete, none, false, false⟩) = 0 →
        st.allowedLogType = some LogType.IN) ∧
      (0 < dayCheckInCount (some ⟨⟨2024,3,15⟩, [⟨⟨2024,3,15⟩,540⟩], [],
          DayStatus.incomplete, none, false, false⟩) →
        dayCheckOutCount (some ⟨⟨2024,3,15⟩, [⟨⟨2024,3,15⟩,540⟩], [],
          DayStatus.incomplete, none, false, false⟩) = 0 →
        st.allowedLogType = some LogType.OUT) ∧
      (dayCheckInCount (some ⟨⟨2024,3,15⟩, [⟨⟨2024,3,15⟩,540⟩], [],
          DayStatus.incomplete, none, false, false⟩) = 0 →
        0 < dayCheckOutCount (some ⟨⟨2024,3,15⟩, [⟨⟨2024,3,15⟩,540⟩], [],
          DayStatus.incomplete, none, false, false⟩) →
        st.allowedLogType = some LogType.IN) ∧
      (0 < dayCheckInCount (some ⟨⟨2024,3,15⟩, [⟨⟨2024,3,15⟩,540⟩], [],
          DayStatus.incomplete, none, false, false⟩) →
        0 < dayCheckOutCount (some ⟨⟨2024,3,15⟩, [⟨⟨2024,3,15⟩,540⟩], [],
          DayStatus.incomplete, none, false, false⟩) →
        st.allowedLogType = none) :=
  ⟨by decide, allowed_entry_type 330 ⟨2024,3,15⟩ ⟨⟨2024,3,15⟩,600⟩ 2024 3 15
    (some ⟨⟨2024,3,15⟩, [⟨⟨2024,3,15⟩,540⟩], [], DayStatus.incomplete,
      none, false, false⟩) (by decide)⟩

/-- C10: the client-side validation checks only the textual shape, not
numeric ranges: "13:45 PM" passes the pattern, the 12-to-24-hour conversion
yields the out-of-range hour string "25:45", and the network request is made
with the invalid timestamp; likewise "11:99 AM" goes out with minute 99. -/
theorem shape_only_validation_out_of_range :
    matchTimePattern "13:45 PM" = some ("13", "45", "PM") ∧
    to24Hour "13" "45" "PM" = "25:45" ∧
    handleSubmitEntry "13:45 PM" (some "2024-03-10") (some "EMP-0001")
      (some LogType.IN) =
      SubmitResult.networkRequest "EMP-0001" "2024-03-10 25:45:00"
        LogType.IN ∧
    matchTimePattern "11:99 AM" = some ("11", "99", "AM") ∧
    handleSubmitEntry "11:99 AM" (some "2024-03-10") (some "EMP-0001")
      (some LogType.OUT) =
      SubmitResult.networkRequest "EMP-0001" "2024-03-10 11:99:00"
        LogType.OUT := by
  exact ⟨by decide, by decide, by decide, by decide, by decide⟩
